import Mathlib

/-!
Verification development for the `asimov-dataset-cli` batch-packing pipeline.

The central object is a shallow embedding of `prepare_worker_loop` from
`src/prepare.rs`: the adaptive batch-size search run by each Packer worker.
The embedding models

* the statement buffer (`VecDeque<(usize, Box<dyn Statement>)>`) as a Lean
  list whose head is the deque front;
* the inbound micro-batch channel (`batch_rx`) as the list of micro-batches
  the worker will receive, in order; a failed `recv` (channel closed) is the
  exhaustion of that list;
* the serializer `serialize_statements` as an abstract function
  `ser : List α → Option Nat` returning the byte length of the serialized
  payload, or `none` for the recoverable "container overflow" error
  (`std::io::ErrorKind::Other`); the fatal error arm (which `panic!`s in the
  source and tears the pipeline down) is outside the modelled state space;
* `f64` fill ratios by exact rational comparison, in integers: the only
  ratios the loop ever compares are `len / MAX` for the one fixed `MAX` of
  the run, so `ratio < 0.95` is `len * 100 < MAX * 95` and
  `ratio != best_ratio` is `len ≠ best_len`, with `best_ratio` tracked by
  its numerator.  For the `MAX` values of interest these integer
  comparisons agree with the source's `f64` ones: the sole integer
  boundary case (`len = 1_493_248 = 0.95 * 1_571_840`) rounds in `f64` to
  exactly the `f64` nearest `0.95`, so both sides classify it as not
  under the target;
* `usize` arithmetic as `Nat`, with the one shift that could conceivably wrap
  in a release build (`write_count_delta <<= 1`) taken modulo `2 ^ 64`;
  the subtractions are `Nat` (truncated) subtractions, and the invariant
  theorems show the reachable states never truncate.

The cancellation token is not modelled (it is never set in the properties
claimed here), and channel sends always succeed (the writer stays alive).
-/

namespace AsimovDatasetCli

/-- `usize::MAX` on the 64-bit targets the crate builds for; the initial
`lowest_overflow` value in `prepare_worker_loop`. -/
def USIZE_MAX : Nat := 2 ^ 64 - 1

/-- `const MAX_FILE_SIZE: usize = 1_572_864 - 1024;` (src/prepare.rs:21) —
max bytes for a serialized result, leaving room for the `rdf_insert` header. -/
def MAX_FILE_SIZE : Nat := 1572864 - 1024

/-- `const ACCEPTABLE_RATIO: f64 = 0.95;` (src/prepare.rs:24) — the probe
classification `ratio < ACCEPTABLE_RATIO` with `ratio = len / MAX` is
modelled by the exact integer comparison `len * 100 < MAX * 95`. -/
def ratio_lt_acceptable (len MAX : Nat) : Prop := len * 100 < MAX * 95

instance (len MAX : Nat) : Decidable (ratio_lt_acceptable len MAX) :=
  inferInstanceAs (Decidable (len * 100 < MAX * 95))

/-- The mutable local state of one `prepare_worker_loop` worker
(src/prepare.rs:196-211), together with the contents still pending on its
inbound micro-batch channel.  Statements are indexed quads `(usize, quad)`;
the quad itself is an opaque `α`. -/
structure PackerState (α : Type) where
  /-- `statement_buffer: VecDeque<(usize, Box<dyn Statement>)>`; head = front. -/
  statement_buffer : List (Nat × α)
  /-- The micro-batches the worker's `batch_rx.recv()` will deliver, in order. -/
  batch_rx : List (List (Nat × α))
  /-- `write_count`: how many statements the next probe serializes. -/
  write_count : Nat
  /-- `write_count_delta`: the current search step magnitude. -/
  write_count_delta : Nat
  /-- `lowest_overflow`: least known overflowing `write_count` (init `usize::MAX`). -/
  lowest_overflow : Nat
  /-- `best_ratio`: best known under-cap fill ratio for the current search,
  tracked by its numerator — the byte length whose ratio over the run's
  fixed `MAX` it denotes (`0.0` is numerator `0`). -/
  best_ratio : Nat
  /-- `skipped_statements`: statements skipped since the last emission. -/
  skipped_statements : Nat
  /-- `have_more`: whether the producer may still deliver micro-batches. -/
  have_more : Bool
deriving DecidableEq

/-- The `RDFBDataset` payload sent to the writer (src/prepare.rs:102-107).
The serialized bytes are abstracted by the statements they encode plus the
byte length reported by the serializer. -/
structure RDFBDataset (α : Type) where
  /-- The indexed statements serialized into `data`. -/
  stmts : List (Nat × α)
  /-- `data.len()`: the byte length of the serialized payload. -/
  size : Nat
  statement_count : Nat
  skipped_statements : Nat
deriving DecidableEq

/-- The refill loop at the top of each iteration (src/prepare.rs:214-220):
`while have_more && statement_buffer.len() < write_count { recv }`.
Returns the updated `(have_more, batch_rx, statement_buffer)`. -/
def refill (write_count : Nat) :
    Bool → List (List (Nat × α)) → List (Nat × α) →
    Bool × List (List (Nat × α)) × List (Nat × α)
  | false, input, buf => (false, input, buf)
  | true, [], buf =>
    if buf.length < write_count then (false, [], buf) else (true, [], buf)
  | true, b :: rest, buf =>
    if buf.length < write_count then refill write_count true rest (buf ++ b)
    else (true, b :: rest, buf)

/-- `while write_count_delta >= diff { write_count_delta >>= 1 }`
(src/prepare.rs:284-286), with a structural halving budget: starting from
`delta` the loop halves at most `log2 delta + 1 ≤ delta` times before
`delta < diff` (for `diff ≥ 1`), so running it on a budget of `delta` steps
computes the loop's result exactly.  With `diff = 0` the source loop would
not terminate on a zero `delta`; the budgeted version returns `0` there, and
the invariant `write_count < lowest_overflow` keeps `diff ≥ 1` at every
reachable call. -/
def shrinkDeltaAux (diff : Nat) : Nat → Nat → Nat
  | 0, delta => delta
  | budget + 1, delta =>
    if diff ≤ delta then shrinkDeltaAux diff budget (delta >>> 1) else delta

/-- The shrink loop run on its own value as budget. -/
def shrinkDelta (diff delta : Nat) : Nat := shrinkDeltaAux diff delta delta

/-- The serializer probe of one iteration (src/prepare.rs:226-228): serialize
the first `try_write_count = write_count.min(statement_buffer.len())`
buffered statements. -/
def serProbe (ser : List α → Option Nat) (s : PackerState α) : Option Nat :=
  ser ((s.statement_buffer.take (min s.write_count s.statement_buffer.length)).map Prod.snd)

/-- The `too_large` classification (src/prepare.rs:230-233): the serializer
produced more than `MAX` bytes, or failed with the container-overflow error. -/
def too_large (ser : List α → Option Nat) (MAX : Nat) (s : PackerState α) : Bool :=
  match serProbe ser s with
  | some len => decide (MAX < len)
  | none => true

/-- The overflow backtracking update (src/prepare.rs:245-260), in source
order: `lowest_overflow = lowest_overflow.min(write_count)`;
`write_count -= write_count_delta`; if `write_count_delta == 1` then
`write_count = lowest_overflow - 2` else `write_count_delta >>= 1`;
`write_count_delta = write_count_delta.max(1)`; `write_count += write_count_delta`. -/
def overflow_update (s : PackerState α) : PackerState α :=
  let lo := min s.lowest_overflow s.write_count
  let wc1 := s.write_count - s.write_count_delta
  let wc2 := if s.write_count_delta = 1 then lo - 2 else wc1
  let d1 := if s.write_count_delta = 1 then s.write_count_delta else s.write_count_delta >>> 1
  let d2 := max d1 1
  { s with lowest_overflow := lo, write_count := wc2 + d2, write_count_delta := d2 }

/-- The outcome of one iteration of the worker loop body.  `probe` records
the `write_count` in force when the iteration serialized (used to state the
spec's convergence scenarios). -/
inductive StepOut (α : Type) where
  | done (s : PackerState α)
  | emit (probe : Nat) (d : RDFBDataset α) (s : PackerState α)
  | skip (probe : Nat) (index : Nat) (s : PackerState α)
  | cont (probe : Nat) (s : PackerState α)
deriving DecidableEq

/-- The state an iteration outcome carries forward. -/
def StepOut.next : StepOut α → PackerState α
  | .done s => s
  | .emit _ _ s => s
  | .skip _ _ s => s
  | .cont _ s => s

/-- Emission (src/prepare.rs:302-319): send `(data, try_write_count,
skipped_statements)`, drain the first `try_write_count` statements, and reset
`write_count`, `best_ratio`, `lowest_overflow`, `skipped_statements`.
`write_count_delta` is *not* reset; `delta` is its value after this
iteration's updates (the plain acceptable path leaves it unchanged, the
accept-fallthrough path has already advanced it). -/
def emit_step (s : PackerState α) (try_write_count len delta : Nat) : StepOut α :=
  .emit s.write_count
    ⟨s.statement_buffer.take try_write_count, len, try_write_count, s.skipped_statements⟩
    { s with statement_buffer := s.statement_buffer.drop try_write_count,
             write_count := 1, write_count_delta := delta,
             best_ratio := 0, lowest_overflow := USIZE_MAX, skipped_statements := 0 }

/-- One iteration of the loop body of `prepare_worker_loop`
(src/prepare.rs:222-319), after the refill phase. -/
def packer_iteration (ser : List α → Option Nat) (MAX : Nat) (s : PackerState α) :
    StepOut α :=
  match s.statement_buffer with
  | [] => .done s
  | (index, _) :: tail =>
    if too_large ser MAX s then
      if s.write_count = 1 then
        -- pop the single too-large front statement, warn with its index, count it
        .skip s.write_count index
          { s with statement_buffer := tail,
                   skipped_statements := s.skipped_statements + 1 }
      else
        .cont s.write_count (overflow_update s)
    else
      let len := (serProbe ser s).getD 0
      let try_write_count := min s.write_count s.statement_buffer.length
      if ratio_lt_acceptable len MAX ∧ len ≠ s.best_ratio ∧
          (s.write_count < s.statement_buffer.length ∨ s.have_more = true) then
        -- under the target, with a different ratio, and more statements available
        let br := max s.best_ratio len
        let d1 := (s.write_count_delta <<< 1) % 2 ^ 64
        let diff := s.lowest_overflow - s.write_count
        let d2 := max (shrinkDelta diff d1) 1
        let wc2 := s.write_count + d2
        if s.lowest_overflow ≤ wc2 + 1 then
          -- best ratio sits at lowest_overflow - 1 or below: accept this payload
          emit_step s try_write_count len d2
        else
          .cont s.write_count
            { s with best_ratio := br, write_count_delta := d2, write_count := wc2 }
      else
        emit_step s try_write_count len s.write_count_delta

/-- The worker state after the refill phase of one iteration. -/
def refilled (s : PackerState α) : PackerState α :=
  { s with
    have_more := (refill s.write_count s.have_more s.batch_rx s.statement_buffer).1,
    batch_rx := (refill s.write_count s.have_more s.batch_rx s.statement_buffer).2.1,
    statement_buffer := (refill s.write_count s.have_more s.batch_rx s.statement_buffer).2.2 }

/-- One full iteration of `prepare_worker_loop`: refill, then the body. -/
def packer_step (ser : List α → Option Nat) (MAX : Nat) (s : PackerState α) :
    StepOut α :=
  packer_iteration ser MAX (refilled s)

/-- The observable trace of a worker run: the probed `write_count`s, the
datasets sent to the writer channel, the indices of skipped statements,
the final state, and whether the loop exited (rather than running out of
fuel). -/
structure RunResult (α : Type) where
  probes : List Nat
  emits : List (RDFBDataset α)
  skips : List Nat
  state : PackerState α
  finished : Bool
deriving DecidableEq

/-- `prepare_worker_loop` (src/prepare.rs:190-323) as a fuelled loop: `fuel`
bounds the number of iterations; `finished = true` means the loop exited via
its own termination condition (empty buffer after refill) within the fuel. -/
def prepare_worker_loop (ser : List α → Option Nat) (MAX : Nat) :
    Nat → PackerState α → RunResult α
  | 0, s => ⟨[], [], [], s, false⟩
  | fuel + 1, s =>
    match packer_step ser MAX s with
    | .done s' => ⟨[], [], [], s', true⟩
    | .emit p d s' =>
      let r := prepare_worker_loop ser MAX fuel s'
      ⟨p :: r.probes, d :: r.emits, r.skips, r.state, r.finished⟩
    | .skip p i s' =>
      let r := prepare_worker_loop ser MAX fuel s'
      ⟨p :: r.probes, r.emits, i :: r.skips, r.state, r.finished⟩
    | .cont p s' =>
      let r := prepare_worker_loop ser MAX fuel s'
      ⟨p :: r.probes, r.emits, r.skips, r.state, r.finished⟩

/-- The initial worker state (src/prepare.rs:196-211): empty buffer,
`write_count = 1`, `write_count_delta = 1`, `lowest_overflow = usize::MAX`,
`best_ratio = 0.0`, `skipped_statements = 0`, `have_more = true`. -/
def initState (input : List (List (Nat × α))) : PackerState α :=
  ⟨[], input, 1, 1, USIZE_MAX, 0, 0, true⟩

/-- A worker run from the initial state on a given inbound channel content. -/
def packer_run (ser : List α → Option Nat) (MAX : Nat) (fuel : Nat)
    (input : List (List (Nat × α))) : RunResult α :=
  prepare_worker_loop ser MAX fuel (initState input)

/-- `write_worker_loop` (src/prepare.rs:325-381) reduced to its observable
output: the numbered output files as `(file_idx, byte length)` pairs, one
per received dataset, indices starting at 1. -/
def write_worker_loop (datasets : List (RDFBDataset α)) : List (Nat × Nat) :=
  datasets.enum.map (fun p => (p.1 + 1, p.2.size))

/-! ### The `publish.rs` file split -/

/-- The final path component, as `std::path::Path::file_name` sees it for
paths with no trailing separator: everything after the last `/`. -/
def file_name_of (p : List Char) : List Char :=
  (p.reverse.takeWhile (fun c => c ≠ '/')).reverse

/-- Model of `std::path::Path::extension` for a path written as a character
list (no trailing separator): `none` if the file name is `.` or `..`, has no
embedded `.`, or begins with its only `.`; otherwise the portion of the file
name after the final `.`. -/
def path_extension (p : List Char) : Option (List Char) :=
  let name := file_name_of p
  if name = ['.'] ∨ name = ['.', '.'] then none
  else
    let extRev := name.reverse.takeWhile (fun c => c ≠ '.')
    if extRev.length = name.length then none
    else if extRev.length + 1 = name.length then none
    else some extRev.reverse

/-- `split_prepared_files` (src/publish.rs:20-25): partition the files into
(prepared, unprepared) according to whether the extension is `rdfb`. -/
def split_prepared_files (files : List (List Char)) :
    List (List Char) × List (List Char) :=
  files.partition (fun file => decide (path_extension file = some "rdfb".toList))

/-! ### Invariant and termination measure for the packer loop -/

/-- The state invariant maintained by `prepare_worker_loop` between
iterations.  It is what makes the source's `usize` subtractions
(`write_count -= write_count_delta`, `lowest_overflow - 2`,
`lowest_overflow - write_count`) safe and the shrink loop terminating. -/
def Inv (s : PackerState α) : Prop :=
  1 ≤ s.write_count_delta ∧
  1 ≤ s.write_count ∧
  s.write_count < s.lowest_overflow ∧
  (s.write_count = 1 ∨ s.write_count_delta < s.write_count) ∧
  s.lowest_overflow ≤ USIZE_MAX ∧
  (s.have_more = false → s.batch_rx = [])

/-- Total statements still held by the worker (buffer plus pending channel). -/
def totalStmts (s : PackerState α) : Nat :=
  (s.statement_buffer ++ s.batch_rx.flatten).length

/-- Lexicographic termination measure for the loop, packed into one `Nat`:
emissions and skips shrink the statement pool; overflow backtracking strictly
lowers `lowest_overflow`; under-target growth strictly shrinks
`lowest_overflow - write_count`. -/
def packerMeasure (s : PackerState α) : Nat :=
  totalStmts s * 2 ^ 128 + s.lowest_overflow * 2 ^ 64 +
    (s.lowest_overflow - s.write_count)

/-! ### Mock serializer scenarios (spec §8) -/

/-- The spec's mock serializer `f(n) = 100·n`: byte length is 100 per
statement, statements carry no further structure. -/
def mock100 : List Unit → Option Nat := fun l => some (100 * l.length)

/-- A micro-batch of `n` trivially indexed statements `0, 1, …, n-1`. -/
def idxBatch (n : Nat) : List (Nat × Unit) := (List.range n).map (fun i => (i, ()))

/-- Modelled from the spec (claim C5's words): the overflow search-state
step as the specification states it: `lowest_overflow :=
min(lowest_overflow, write_count)`; `write_count := write_count − delta`;
if `delta = 1` then `write_count := lowest_overflow − 2` else
`delta := max(1, delta >> 1)`; finally `write_count := write_count + delta`. -/
def spec_overflow_update (s : PackerState α) : PackerState α :=
  let lo := min s.lowest_overflow s.write_count
  let wcBack := s.write_count - s.write_count_delta
  let wcNext := if s.write_count_delta = 1 then lo - 2 else wcBack
  let dNext := if s.write_count_delta = 1 then 1
               else max 1 (s.write_count_delta >>> 1)
  { s with lowest_overflow := lo, write_count := wcNext + dNext,
           write_count_delta := dNext }

/-- How many input statements an iteration outcome consumes for good:
the emitted dataset's `statement_count`, or `1` for a skipped statement. -/
def outCount : StepOut α → Nat
  | .emit _ d _ => d.statement_count
  | .skip _ _ _ => 1
  | _ => 0

/-- The statements an iteration outcome emits towards the writer. -/
def outStmts : StepOut α → List (Nat × α)
  | .emit _ d _ => d.stmts
  | _ => []

/-! ## Lemmas about the refill phase -/

lemma refill_flatten (wc : Nat) :
    ∀ (input : List (List (Nat × α))) (hm : Bool) (buf : List (Nat × α)),
      (refill wc hm input buf).2.2 ++ (refill wc hm input buf).2.1.flatten
        = buf ++ input.flatten := by
  intro input
  induction input with
  | nil =>
    intro hm buf
    cases hm
    · simp [refill]
    · simp only [refill]
      split <;> simp
  | cons b rest ih =>
    intro hm buf
    cases hm
    · simp [refill]
    · simp only [refill]
      by_cases h : buf.length < wc
      · rw [if_pos h]
        rw [ih true (buf ++ b)]
        simp [List.append_assoc]
      · rw [if_neg h]

lemma refill_false_nil (wc : Nat) :
    ∀ (input : List (List (Nat × α))) (hm : Bool) (buf : List (Nat × α)),
      (hm = false → input = []) →
      (refill wc hm input buf).1 = false → (refill wc hm input buf).2.1 = [] := by
  intro input
  induction input with
  | nil =>
    intro hm buf _
    cases hm
    · simp [refill]
    · simp only [refill]
      split <;> simp
  | cons b rest ih =>
    intro hm buf hinv
    cases hm
    · exact absurd (hinv rfl) (by simp)
    · simp only [refill]
      by_cases h : buf.length < wc
      · rw [if_pos h]
        exact ih true (buf ++ b) (by simp)
      · rw [if_neg h]
        simp

lemma refill_true_le (wc : Nat) :
    ∀ (input : List (List (Nat × α))) (hm : Bool) (buf : List (Nat × α)),
      (refill wc hm input buf).1 = true → wc ≤ (refill wc hm input buf).2.2.length := by
  intro input
  induction input with
  | nil =>
    intro hm buf
    cases hm
    · simp [refill]
    · simp only [refill]
      by_cases h : buf.length < wc
      · rw [if_pos h]
        simp
      · rw [if_neg h]
        exact fun _ => Nat.le_of_not_lt h
  | cons b rest ih =>
    intro hm buf
    cases hm
    · simp [refill]
    · simp only [refill]
      by_cases h : buf.length < wc
      · rw [if_pos h]
        exact ih true (buf ++ b)
      · rw [if_neg h]
        exact fun _ => Nat.le_of_not_lt h

@[simp] lemma refilled_write_count (s : PackerState α) :
    (refilled s).write_count = s.write_count := rfl

@[simp] lemma refilled_write_count_delta (s : PackerState α) :
    (refilled s).write_count_delta = s.write_count_delta := rfl

@[simp] lemma refilled_lowest_overflow (s : PackerState α) :
    (refilled s).lowest_overflow = s.lowest_overflow := rfl

@[simp] lemma refilled_best_ratio (s : PackerState α) :
    (refilled s).best_ratio = s.best_ratio := rfl

@[simp] lemma refilled_skipped_statements (s : PackerState α) :
    (refilled s).skipped_statements = s.skipped_statements := rfl

lemma refilled_flatten (s : PackerState α) :
    (refilled s).statement_buffer ++ (refilled s).batch_rx.flatten
      = s.statement_buffer ++ s.batch_rx.flatten :=
  refill_flatten _ _ _ _

lemma refilled_total (s : PackerState α) : totalStmts (refilled s) = totalStmts s := by
  unfold totalStmts
  rw [congrArg List.length (refilled_flatten s)]

lemma refilled_measure (s : PackerState α) :
    packerMeasure (refilled s) = packerMeasure s := by
  unfold packerMeasure
  rw [refilled_total]
  rfl

lemma refilled_hm (s : PackerState α) (h : s.have_more = false → s.batch_rx = []) :
    (refilled s).have_more = false → (refilled s).batch_rx = [] :=
  refill_false_nil _ _ _ _ h

lemma refilled_inv (s : PackerState α) (h : Inv s) : Inv (refilled s) := by
  obtain ⟨h1, h2, h3, h4, h5, h6⟩ := h
  exact ⟨h1, h2, h3, h4, h5, refilled_hm s h6⟩

lemma refilled_empty_not_more (s : PackerState α) (hwc : 1 ≤ s.write_count)
    (hb : (refilled s).statement_buffer = []) : (refilled s).have_more = false := by
  by_contra h
  have h1 : (refilled s).have_more = true := by
    cases hhm : (refilled s).have_more
    · exact absurd hhm h
    · rfl
  have h2 := refill_true_le s.write_count s.batch_rx s.have_more s.statement_buffer h1
  have h3 : (refilled s).statement_buffer
      = (refill s.write_count s.have_more s.batch_rx s.statement_buffer).2.2 := rfl
  rw [h3] at hb
  rw [hb] at h2
  simp at h2
  omega

/-! ## Case analysis of one loop iteration -/

lemma packer_iteration_cases (ser : List α → Option Nat) (MAX : Nat) (s : PackerState α) :
    (s.statement_buffer = [] ∧ packer_iteration ser MAX s = .done s) ∨
    (∃ idx a tail, s.statement_buffer = (idx, a) :: tail ∧
      too_large ser MAX s = true ∧ s.write_count = 1 ∧
      packer_iteration ser MAX s =
        .skip s.write_count idx
          { s with statement_buffer := tail,
                   skipped_statements := s.skipped_statements + 1 }) ∨
    (s.statement_buffer ≠ [] ∧ too_large ser MAX s = true ∧ s.write_count ≠ 1 ∧
      packer_iteration ser MAX s = .cont s.write_count (overflow_update s)) ∨
    (∃ len d2, s.statement_buffer ≠ [] ∧ serProbe ser s = some len ∧ ¬ MAX < len ∧
      1 ≤ d2 ∧ s.write_count + d2 + 1 < s.lowest_overflow ∧
      packer_iteration ser MAX s =
        .cont s.write_count
          { s with best_ratio := max s.best_ratio len,
                   write_count_delta := d2, write_count := s.write_count + d2 }) ∨
    (∃ len delta, s.statement_buffer ≠ [] ∧ serProbe ser s = some len ∧ ¬ MAX < len ∧
      (1 ≤ s.write_count_delta → 1 ≤ delta) ∧
      packer_iteration ser MAX s =
        emit_step s (min s.write_count s.statement_buffer.length) len delta) := by
  rcases hb : s.statement_buffer with _ | ⟨⟨idx, a⟩, tail⟩
  · refine Or.inl ⟨rfl, ?_⟩
    simp only [packer_iteration, hb]
  · by_cases htl : too_large ser MAX s = true
    · by_cases hwc : s.write_count = 1
      · refine Or.inr (Or.inl ⟨idx, a, tail, rfl, htl, hwc, ?_⟩)
        simp only [packer_iteration, hb]
        rw [if_pos htl, if_pos hwc]
      · refine Or.inr (Or.inr (Or.inl ⟨by simp, htl, hwc, ?_⟩))
        simp only [packer_iteration, hb]
        rw [if_pos htl, if_neg hwc]
    · rcases hser : serProbe ser s with _ | len
      · exact absurd (by simp [too_large, hser]) htl
      · have hlen : ¬ MAX < len := by
          intro h
          exact htl (by simp [too_large, hser, h])
        by_cases hcond : (ratio_lt_acceptable len MAX ∧ len ≠ s.best_ratio ∧
            (s.write_count < ((idx, a) :: tail).length ∨ s.have_more = true))
        · by_cases hacc : s.lowest_overflow ≤ s.write_count +
              max (shrinkDelta (s.lowest_overflow - s.write_count)
                ((s.write_count_delta <<< 1) % 2 ^ 64)) 1 + 1
          · refine Or.inr (Or.inr (Or.inr (Or.inr ⟨len,
              max (shrinkDelta (s.lowest_overflow - s.write_count)
                ((s.write_count_delta <<< 1) % 2 ^ 64)) 1,
              by simp, rfl, hlen, fun _ => le_max_right _ 1, ?_⟩)))
            simp only [packer_iteration, hb, hser, Option.getD_some]
            rw [if_neg htl, if_pos hcond, if_pos hacc]
          · refine Or.inr (Or.inr (Or.inr (Or.inl ⟨len,
              max (shrinkDelta (s.lowest_overflow - s.write_count)
                ((s.write_count_delta <<< 1) % 2 ^ 64)) 1,
              by simp, rfl, hlen, le_max_right _ 1, by omega, ?_⟩)))
            simp only [packer_iteration, hb, hser, Option.getD_some]
            rw [if_neg htl, if_pos hcond, if_neg hacc]
        · refine Or.inr (Or.inr (Or.inr (Or.inr ⟨len, s.write_count_delta, by simp,
            rfl, hlen, fun h => h, ?_⟩)))
          simp only [packer_iteration, hb, hser, Option.getD_some]
          rw [if_neg htl, if_neg hcond]

/-! ## Invariant preservation and the termination measure -/

lemma overflow_update_facts (s : PackerState α) (h : Inv s) (hwc : s.write_count ≠ 1) :
    Inv (overflow_update s) ∧
    (overflow_update s).lowest_overflow < s.lowest_overflow ∧
    (overflow_update s).statement_buffer = s.statement_buffer ∧
    (overflow_update s).batch_rx = s.batch_rx ∧
    (overflow_update s).have_more = s.have_more ∧
    (overflow_update s).skipped_statements = s.skipped_statements := by
  obtain ⟨h1, h2, h3, h4, h5, h6⟩ := h
  have hw2 : 2 ≤ s.write_count := by omega
  have hdw : s.write_count_delta < s.write_count := by
    rcases h4 with h4 | h4 <;> omega
  have hmin : min s.lowest_overflow s.write_count = s.write_count :=
    min_eq_right (le_of_lt h3)
  have e3 : (overflow_update s).lowest_overflow = s.write_count := by
    simp [overflow_update, hmin]
  by_cases hd : s.write_count_delta = 1
  · have e1 : (overflow_update s).write_count_delta = 1 := by
      simp [overflow_update, hd]
    have e2 : (overflow_update s).write_count = (s.write_count - 2) + 1 := by
      simp [overflow_update, hd, hmin]
    refine ⟨⟨?_, ?_, ?_, ?_, ?_, h6⟩, ?_, rfl, rfl, rfl, rfl⟩ <;>
      simp only [e1, e2, e3] <;> omega
  · have hδge : 2 ≤ s.write_count_delta := by omega
    have hmax : max (s.write_count_delta / 2) 1 = s.write_count_delta / 2 :=
      max_eq_left (by omega)
    have e1 : (overflow_update s).write_count_delta = s.write_count_delta / 2 := by
      simp [overflow_update, hd, Nat.shiftRight_one, hmax]
    have e2 : (overflow_update s).write_count
        = (s.write_count - s.write_count_delta) + s.write_count_delta / 2 := by
      simp [overflow_update, hd, Nat.shiftRight_one, hmax]
    refine ⟨⟨?_, ?_, ?_, ?_, ?_, h6⟩, ?_, rfl, rfl, rfl, rfl⟩ <;>
      simp only [e1, e2, e3] <;> omega

lemma packer_iteration_inv (ser : List α → Option Nat) (MAX : Nat) (s : PackerState α)
    (h : Inv s) : Inv (packer_iteration ser MAX s).next := by
  have hUS : 1 < USIZE_MAX := by norm_num [USIZE_MAX]
  obtain ⟨h1, h2, h3, h4, h5, h6⟩ := h
  rcases packer_iteration_cases ser MAX s with
    ⟨hb, heq⟩ |
    ⟨idx, a, tail, hb, _, hwc, heq⟩ |
    ⟨hb, _, hwc, heq⟩ |
    ⟨len, d2, hb, hser, hlen, hd2, hlt, heq⟩ |
    ⟨len, delta, hb, hser, hlen, hdelta, heq⟩
  · rw [heq]
    exact ⟨h1, h2, h3, h4, h5, h6⟩
  · rw [heq]
    exact ⟨h1, h2, h3, h4, h5, h6⟩
  · rw [heq]
    exact (overflow_update_facts s ⟨h1, h2, h3, h4, h5, h6⟩ hwc).1
  · rw [heq]
    refine ⟨hd2, ?_, ?_, Or.inr ?_, h5, h6⟩ <;> dsimp only [StepOut.next] <;> omega
  · rw [heq]
    exact ⟨hdelta h1, le_refl 1, hUS, Or.inl rfl, le_refl _, h6⟩

lemma packer_step_inv (ser : List α → Option Nat) (MAX : Nat) (s : PackerState α)
    (h : Inv s) : Inv (packer_step ser MAX s).next :=
  packer_iteration_inv ser MAX (refilled s) (refilled_inv s h)

lemma emit_step_next_total (s : PackerState α) (t len delta : Nat) :
    totalStmts (emit_step s t len delta).next + min t s.statement_buffer.length
      = totalStmts s := by
  unfold emit_step StepOut.next totalStmts
  simp only [List.length_append, List.length_drop]
  omega

lemma packer_iteration_measure (ser : List α → Option Nat) (MAX : Nat)
    (s : PackerState α) (h : Inv s) :
    (∃ s', packer_iteration ser MAX s = .done s') ∨
    packerMeasure (packer_iteration ser MAX s).next < packerMeasure s := by
  have hUS : USIZE_MAX = 2 ^ 64 - 1 := rfl
  obtain ⟨h1, h2, h3, h4, h5, h6⟩ := h
  rcases packer_iteration_cases ser MAX s with
    ⟨hb, heq⟩ |
    ⟨idx, a, tail, hb, _, hwc, heq⟩ |
    ⟨hb, _, hwc, heq⟩ |
    ⟨len, d2, hb, hser, hlen, hd2, hlt, heq⟩ |
    ⟨len, delta, hb, hser, hlen, hdelta, heq⟩
  · exact Or.inl ⟨s, heq⟩
  · refine Or.inr ?_
    rw [heq]
    dsimp only [StepOut.next]
    unfold packerMeasure totalStmts
    simp only [hb, List.cons_append, List.length_cons, List.length_append]
    have hx : s.lowest_overflow ≤ 2 ^ 64 - 1 := by rw [hUS] at h5; exact h5
    omega
  · refine Or.inr ?_
    rw [heq]
    dsimp only [StepOut.next]
    have hov := overflow_update_facts s ⟨h1, h2, h3, h4, h5, h6⟩ hwc
    unfold packerMeasure totalStmts
    rw [hov.2.2.1, hov.2.2.2.1]
    have hlt := hov.2.1
    have hx : s.lowest_overflow ≤ 2 ^ 64 - 1 := by rw [hUS] at h5; exact h5
    have hy : (overflow_update s).lowest_overflow ≤ 2 ^ 64 - 1 := by omega
    have hz : (overflow_update s).lowest_overflow - (overflow_update s).write_count
        ≤ 2 ^ 64 - 1 := by omega
    omega
  · refine Or.inr ?_
    rw [heq]
    dsimp only [StepOut.next]
    unfold packerMeasure totalStmts
    dsimp only
    omega
  · refine Or.inr ?_
    rw [heq]
    have htot := emit_step_next_total s (min s.write_count s.statement_buffer.length) len delta
    have hmin : 1 ≤ min s.write_count s.statement_buffer.length := by
      rcases hbuf : s.statement_buffer with _ | ⟨x, xs⟩
      · exact absurd hbuf hb
      · simp only [List.length_cons]
        omega
    have hy : 1 ≤ totalStmts s := by
      unfold totalStmts
      rcases hbuf : s.statement_buffer with _ | ⟨x, xs⟩
      · exact absurd hbuf hb
      · simp
    unfold packerMeasure
    have h7 : (emit_step s (min s.write_count s.statement_buffer.length) len delta).next.lowest_overflow
        = USIZE_MAX := rfl
    have h8 : (emit_step s (min s.write_count s.statement_buffer.length) len delta).next.write_count
        = 1 := rfl
    rw [h7, h8, hUS]
    have hx : s.lowest_overflow ≤ 2 ^ 64 - 1 := by rw [hUS] at h5; exact h5
    omega

lemma packer_step_measure (ser : List α → Option Nat) (MAX : Nat) (s : PackerState α)
    (h : Inv s) :
    (∃ s', packer_step ser MAX s = .done s') ∨
    packerMeasure (packer_step ser MAX s).next < packerMeasure s := by
  have := packer_iteration_measure ser MAX (refilled s) (refilled_inv s h)
  rw [refilled_measure] at this
  exact this

/-! ## Per-iteration bookkeeping -/

lemma packer_iteration_count (ser : List α → Option Nat) (MAX : Nat) (s : PackerState α) :
    outCount (packer_iteration ser MAX s) + totalStmts (packer_iteration ser MAX s).next
      = totalStmts s := by
  rcases packer_iteration_cases ser MAX s with
    ⟨hb, heq⟩ |
    ⟨idx, a, tail, hb, _, hwc, heq⟩ |
    ⟨hb, _, hwc, heq⟩ |
    ⟨len, d2, hb, hser, hlen, hd2, hlt, heq⟩ |
    ⟨len, delta, hb, hser, hlen, hdelta, heq⟩ <;> rw [heq] <;>
    dsimp only [outCount, StepOut.next, overflow_update, emit_step] <;>
    unfold totalStmts <;>
    simp only [hb, List.cons_append, List.length_cons, List.length_append,
      List.length_drop] <;>
    omega

lemma packer_step_count (ser : List α → Option Nat) (MAX : Nat) (s : PackerState α) :
    outCount (packer_step ser MAX s) + totalStmts (packer_step ser MAX s).next
      = totalStmts s := by
  have := packer_iteration_count ser MAX (refilled s)
  rw [refilled_total] at this
  exact this

lemma packer_iteration_sublist (ser : List α → Option Nat) (MAX : Nat)
    (s : PackerState α) :
    (outStmts (packer_iteration ser MAX s) ++
      ((packer_iteration ser MAX s).next.statement_buffer ++
        (packer_iteration ser MAX s).next.batch_rx.flatten)).Sublist
      (s.statement_buffer ++ s.batch_rx.flatten) := by
  rcases packer_iteration_cases ser MAX s with
    ⟨hb, heq⟩ |
    ⟨idx, a, tail, hb, _, hwc, heq⟩ |
    ⟨hb, _, hwc, heq⟩ |
    ⟨len, d2, hb, hser, hlen, hd2, hlt, heq⟩ |
    ⟨len, delta, hb, hser, hlen, hdelta, heq⟩ <;> rw [heq]
  · dsimp only [outStmts, StepOut.next]
    simp
  · dsimp only [outStmts, StepOut.next]
    simp only [hb, List.nil_append, List.cons_append]
    exact (List.sublist_cons_self _ _)
  · dsimp only [outStmts, StepOut.next, overflow_update]
    simp
  · dsimp only [outStmts, StepOut.next]
    simp
  · dsimp only [emit_step, outStmts, StepOut.next]
    rw [← List.append_assoc, List.take_append_drop]

lemma packer_step_sublist (ser : List α → Option Nat) (MAX : Nat) (s : PackerState α) :
    (outStmts (packer_step ser MAX s) ++
      ((packer_step ser MAX s).next.statement_buffer ++
        (packer_step ser MAX s).next.batch_rx.flatten)).Sublist
      (s.statement_buffer ++ s.batch_rx.flatten) := by
  have := packer_iteration_sublist ser MAX (refilled s)
  rw [refilled_flatten] at this
  exact this

lemma packer_iteration_wc (ser : List α → Option Nat) (MAX : Nat) (s : PackerState α)
    (h : 1 ≤ s.write_count) : 1 ≤ (packer_iteration ser MAX s).next.write_count := by
  rcases packer_iteration_cases ser MAX s with
    ⟨hb, heq⟩ |
    ⟨idx, a, tail, hb, _, hwc, heq⟩ |
    ⟨hb, _, hwc, heq⟩ |
    ⟨len, d2, hb, hser, hlen, hd2, hlt, heq⟩ |
    ⟨len, delta, hb, hser, hlen, hdelta, heq⟩ <;> rw [heq] <;>
    dsimp only [emit_step, StepOut.next] <;> try omega
  have e : (overflow_update s).write_count
      = (if s.write_count_delta = 1
          then min s.lowest_overflow s.write_count - 2
          else s.write_count - s.write_count_delta) +
        max (if s.write_count_delta = 1
          then s.write_count_delta else s.write_count_delta >>> 1) 1 := rfl
  omega

lemma packer_iteration_hm (ser : List α → Option Nat) (MAX : Nat) (s : PackerState α)
    (h : s.have_more = false → s.batch_rx = []) :
    (packer_iteration ser MAX s).next.have_more = false →
      (packer_iteration ser MAX s).next.batch_rx = [] := by
  rcases packer_iteration_cases ser MAX s with
    ⟨hb, heq⟩ |
    ⟨idx, a, tail, hb, _, hwc, heq⟩ |
    ⟨hb, _, hwc, heq⟩ |
    ⟨len, d2, hb, hser, hlen, hd2, hlt, heq⟩ |
    ⟨len, delta, hb, hser, hlen, hdelta, heq⟩ <;> rw [heq] <;>
    dsimp only [emit_step, overflow_update, StepOut.next] <;> exact h

lemma packer_step_wc (ser : List α → Option Nat) (MAX : Nat) (s : PackerState α)
    (h : 1 ≤ s.write_count) : 1 ≤ (packer_step ser MAX s).next.write_count :=
  packer_iteration_wc ser MAX (refilled s) h

lemma packer_step_hm (ser : List α → Option Nat) (MAX : Nat) (s : PackerState α)
    (h : s.have_more = false → s.batch_rx = []) :
    (packer_step ser MAX s).next.have_more = false →
      (packer_step ser MAX s).next.batch_rx = [] :=
  packer_iteration_hm ser MAX (refilled s) (refilled_hm s h)

lemma packer_step_done (ser : List α → Option Nat) (MAX : Nat) (s : PackerState α)
    (hwc : 1 ≤ s.write_count) (hhm : s.have_more = false → s.batch_rx = [])
    (s' : PackerState α) (hdone : packer_step ser MAX s = .done s') :
    s'.statement_buffer = [] ∧ s'.batch_rx = [] := by
  unfold packer_step at hdone
  rcases packer_iteration_cases ser MAX (refilled s) with
    ⟨hb, heq⟩ |
    ⟨idx, a, tail, hb, _, _, heq⟩ |
    ⟨hb, _, _, heq⟩ |
    ⟨len, d2, hb, _, _, _, _, heq⟩ |
    ⟨len, delta, hb, _, _, _, heq⟩ <;> rw [heq] at hdone <;>
    first
    | (injection hdone with hdone
       subst hdone
       have hmore := refilled_empty_not_more s hwc hb
       exact ⟨hb, refilled_hm s hhm hmore⟩)
    | simp [emit_step] at hdone

lemma packer_step_emit (ser : List α → Option Nat) (MAX : Nat) (s : PackerState α)
    (p : Nat) (d : RDFBDataset α) (s' : PackerState α)
    (hstep : packer_step ser MAX s = .emit p d s') :
    ser (d.stmts.map Prod.snd) = some d.size ∧ ¬ MAX < d.size ∧
    d.statement_count = d.stmts.length ∧
    d.skipped_statements = s.skipped_statements ∧ s'.skipped_statements = 0 := by
  unfold packer_step at hstep
  rcases packer_iteration_cases ser MAX (refilled s) with
    ⟨hb, heq⟩ |
    ⟨idx, a, tail, hb, _, _, heq⟩ |
    ⟨hb, _, _, heq⟩ |
    ⟨len, d2, hb, hser, hlen, _, _, heq⟩ |
    ⟨len, delta, hb, hser, hlen, _, heq⟩ <;> rw [heq] at hstep
  · exact absurd hstep (by simp)
  · exact absurd hstep (by simp)
  · exact absurd hstep (by simp)
  · exact absurd hstep (by simp)
  · dsimp only [emit_step] at hstep
    injection hstep with hp hd hs
    subst hd
    subst hs
    refine ⟨?_, hlen, ?_, ?_, rfl⟩
    · unfold serProbe at hser
      exact hser
    · dsimp only
      rw [List.length_take]
      have := min_le_right (refilled s).write_count (refilled s).statement_buffer.length
      omega
    · dsimp only
      rfl

/-! ## Whole-run lemmas -/

lemma loop_count (ser : List α → Option Nat) (MAX : Nat) :
    ∀ (fuel : Nat) (s : PackerState α),
      ((prepare_worker_loop ser MAX fuel s).emits.map RDFBDataset.statement_count).sum
        + (prepare_worker_loop ser MAX fuel s).skips.length
        + totalStmts (prepare_worker_loop ser MAX fuel s).state
      = totalStmts s := by
  intro fuel
  induction fuel with
  | zero => intro s; simp [prepare_worker_loop]
  | succ n ih =>
    intro s
    have hc := packer_step_count ser MAX s
    rcases hstep : packer_step ser MAX s with s' | ⟨p, d, s'⟩ | ⟨p, i, s'⟩ | ⟨p, s'⟩ <;>
      rw [hstep] at hc <;> dsimp only [outCount, StepOut.next] at hc <;>
      simp only [prepare_worker_loop, hstep, List.map_cons, List.sum_cons,
        List.length_cons, List.map_nil, List.sum_nil, List.length_nil] <;>
      have := ih s' <;> omega

lemma loop_sublist (ser : List α → Option Nat) (MAX : Nat) :
    ∀ (fuel : Nat) (s : PackerState α),
      (((prepare_worker_loop ser MAX fuel s).emits.map RDFBDataset.stmts).flatten).Sublist
        (s.statement_buffer ++ s.batch_rx.flatten) := by
  intro fuel
  induction fuel with
  | zero => intro s; simp [prepare_worker_loop]
  | succ n ih =>
    intro s
    have hsub := packer_step_sublist ser MAX s
    rcases hstep : packer_step ser MAX s with s' | ⟨p, d, s'⟩ | ⟨p, i, s'⟩ | ⟨p, s'⟩ <;>
      rw [hstep] at hsub <;> dsimp only [outStmts, StepOut.next] at hsub <;>
      simp only [prepare_worker_loop, hstep, List.map_cons, List.flatten_cons,
        List.map_nil, List.flatten_nil, List.nil_append] at hsub ⊢
    · simp
    · exact ((ih s').append_left d.stmts).trans hsub
    · exact (ih s').trans hsub
    · exact (ih s').trans hsub

lemma loop_finished_total (ser : List α → Option Nat) (MAX : Nat) :
    ∀ (fuel : Nat) (s : PackerState α), 1 ≤ s.write_count →
      (s.have_more = false → s.batch_rx = []) →
      (prepare_worker_loop ser MAX fuel s).finished = true →
      totalStmts (prepare_worker_loop ser MAX fuel s).state = 0 := by
  intro fuel
  induction fuel with
  | zero =>
    intro s _ _ hfin
    exact absurd hfin (by simp [prepare_worker_loop])
  | succ n ih =>
    intro s hwc hhm hfin
    have hw := packer_step_wc ser MAX s hwc
    have hh := packer_step_hm ser MAX s hhm
    rcases hstep : packer_step ser MAX s with s' | ⟨p, d, s'⟩ | ⟨p, i, s'⟩ | ⟨p, s'⟩ <;>
      rw [hstep] at hw hh <;> dsimp only [StepOut.next] at hw hh <;>
      simp only [prepare_worker_loop, hstep] at hfin ⊢
    · obtain ⟨hb, hrx⟩ := packer_step_done ser MAX s hwc hhm s' hstep
      simp [totalStmts, hb, hrx]
    · exact ih s' hw hh hfin
    · exact ih s' hw hh hfin
    · exact ih s' hw hh hfin

lemma loop_size (ser : List α → Option Nat) (MAX : Nat) :
    ∀ (fuel : Nat) (s : PackerState α) (d : RDFBDataset α),
      d ∈ (prepare_worker_loop ser MAX fuel s).emits →
      d.size ≤ MAX ∧ ser (d.stmts.map Prod.snd) = some d.size ∧
      d.statement_count = d.stmts.length := by
  intro fuel
  induction fuel with
  | zero =>
    intro s d hd
    exact absurd hd (by simp [prepare_worker_loop])
  | succ n ih =>
    intro s d hd
    rcases hstep : packer_step ser MAX s with s' | ⟨p, d0, s'⟩ | ⟨p, i, s'⟩ | ⟨p, s'⟩ <;>
      simp only [prepare_worker_loop, hstep] at hd
    · exact absurd hd (by simp)
    · rcases List.mem_cons.mp hd with hd | hd
      · subst hd
        obtain ⟨he1, he2, he3, _, _⟩ := packer_step_emit ser MAX s p d s' hstep
        exact ⟨Nat.le_of_not_lt he2, he1, he3⟩
      · exact ih s' d hd
    · exact ih s' d hd
    · exact ih s' d hd

lemma loop_term_aux (ser : List α → Option Nat) (MAX : Nat) :
    ∀ (N : Nat) (s : PackerState α), Inv s → packerMeasure s ≤ N →
      ∃ fuel, (prepare_worker_loop ser MAX fuel s).finished = true := by
  intro N
  induction N with
  | zero =>
    intro s hs hm
    rcases packer_step_measure ser MAX s hs with ⟨s', hdone⟩ | hlt
    · exact ⟨1, by simp [prepare_worker_loop, hdone]⟩
    · exact absurd (Nat.lt_of_lt_of_le hlt hm) (Nat.not_lt_zero _)
  | succ n ih =>
    intro s hs hm
    rcases packer_step_measure ser MAX s hs with ⟨s', hdone⟩ | hlt
    · exact ⟨1, by simp [prepare_worker_loop, hdone]⟩
    · have hinv' := packer_step_inv ser MAX s hs
      obtain ⟨fuel, hf⟩ := ih (packer_step ser MAX s).next hinv' (by omega)
      refine ⟨fuel + 1, ?_⟩
      rcases hstep : packer_step ser MAX s with s' | ⟨p, d, s'⟩ | ⟨p, i, s'⟩ | ⟨p, s'⟩ <;>
        rw [hstep] at hf <;> dsimp only [StepOut.next] at hf <;>
        simp [prepare_worker_loop, hstep, hf]

lemma Inv_initState (input : List (List (Nat × α))) : Inv (initState input) := by
  refine ⟨le_refl 1, le_refl 1, ?_, Or.inl rfl, le_refl _, ?_⟩
  · show (1 : Nat) < USIZE_MAX
    norm_num [USIZE_MAX]
  · intro h
    exact absurd h (by simp [initState])

/-! ## The claims -/

/-- C1: every serialized dataset emitted by a Packer — and hence every output
file written by the Writer — has byte length at most
`MAX_FILE_SIZE = 1_571_840`: a probe whose serialization succeeds but yields
more than `MAX_FILE_SIZE` bytes is classified as overflow and is never sent
to the writer channel. -/
theorem emitted_datasets_within_max_file_size {α : Type}
    (ser : List α → Option Nat) (fuel : Nat) (s : PackerState α) (d : RDFBDataset α)
    (hd : d ∈ (prepare_worker_loop ser MAX_FILE_SIZE fuel s).emits) :
    MAX_FILE_SIZE = 1571840 ∧ d.size ≤ MAX_FILE_SIZE ∧
    ser (d.stmts.map Prod.snd) = some d.size ∧
    ∀ f ∈ write_worker_loop (prepare_worker_loop ser MAX_FILE_SIZE fuel s).emits,
      f.2 ≤ MAX_FILE_SIZE := by
  obtain ⟨h1, h2, _⟩ := loop_size ser MAX_FILE_SIZE fuel s d hd
  refine ⟨by norm_num [MAX_FILE_SIZE], h1, h2, ?_⟩
  intro f hf
  unfold write_worker_loop at hf
  rw [List.mem_map] at hf
  obtain ⟨p, hp, rfl⟩ := hf
  have hmem : p.2 ∈ (prepare_worker_loop ser MAX_FILE_SIZE fuel s).emits :=
    List.getElem?_mem (List.mem_enum_iff_getElem?.mp hp)
  simpa using (loop_size ser MAX_FILE_SIZE fuel s p.2 hmem).1

theorem emitted_datasets_within_max_file_size_witness :
    (⟨idxBatch 3, 300, 3, 0⟩ : RDFBDataset Unit) ∈
        (prepare_worker_loop mock100 MAX_FILE_SIZE 4 (initState [idxBatch 3])).emits ∧
    (⟨idxBatch 3, 300, 3, 0⟩ : RDFBDataset Unit).size ≤ MAX_FILE_SIZE :=
  ⟨by decide,
   (emitted_datasets_within_max_file_size mock100 4 (initState [idxBatch 3])
      ⟨idxBatch 3, 300, 3, 0⟩ (by decide)).2.1⟩

/-- C2: for a finite input totalling `T` statements of which `S` are skipped
as oversize, a worker run that terminates has emitted datasets whose
`statement_count`s sum to exactly `T − S`: each emission drains exactly the
statements it encodes, each skip removes exactly one, and nothing is lost or
duplicated. -/
theorem packer_statement_conservation {α : Type} (ser : List α → Option Nat)
    (MAX fuel : Nat) (input : List (List (Nat × α)))
    (hfin : (packer_run ser MAX fuel input).finished = true) :
    (packer_run ser MAX fuel input).skips.length ≤ input.flatten.length ∧
    ((packer_run ser MAX fuel input).emits.map RDFBDataset.statement_count).sum
      = input.flatten.length - (packer_run ser MAX fuel input).skips.length := by
  have hc := loop_count ser MAX fuel (initState input)
  have hf := loop_finished_total ser MAX fuel (initState input) (le_refl 1)
    (fun h => absurd h (by simp [initState])) hfin
  have ht : totalStmts (initState input) = input.flatten.length := by
    simp [totalStmts, initState]
  unfold packer_run at hfin ⊢
  omega

theorem packer_statement_conservation_witness :
    (packer_run mock100 499 14 [idxBatch 10]).finished = true ∧
    (packer_run mock100 499 14 [idxBatch 10]).skips.length
      ≤ ([idxBatch 10].flatten).length ∧
    ((packer_run mock100 499 14 [idxBatch 10]).emits.map
        RDFBDataset.statement_count).sum
      = ([idxBatch 10].flatten).length
        - (packer_run mock100 499 14 [idxBatch 10]).skips.length :=
  ⟨by decide,
   (packer_statement_conservation mock100 499 14 [idxBatch 10] (by decide)).1,
   (packer_statement_conservation mock100 499 14 [idxBatch 10] (by decide)).2⟩

/-- C3: when the Reader-assigned indices of the input stream are strictly
increasing, then within each emitted dataset statements appear in input
order (strictly increasing indices), and across successive datasets of one
Packer every statement of a later dataset has a larger index than every
statement of an earlier one. -/
theorem packer_emission_ordering {α : Type} (ser : List α → Option Nat)
    (MAX fuel : Nat) (input : List (List (Nat × α)))
    (hord : (input.flatten.map Prod.fst).Pairwise (· < ·)) :
    (∀ d ∈ (packer_run ser MAX fuel input).emits,
      (d.stmts.map Prod.fst).Pairwise (· < ·)) ∧
    (packer_run ser MAX fuel input).emits.Pairwise (fun d1 d2 =>
      ∀ i ∈ d1.stmts.map Prod.fst, ∀ j ∈ d2.stmts.map Prod.fst, i < j) := by
  have hsub := loop_sublist ser MAX fuel (initState input)
  have hpool : (initState input).statement_buffer
      ++ (initState input).batch_rx.flatten = input.flatten := by
    simp [initState]
  rw [hpool] at hsub
  have hpw := List.Pairwise.sublist (hsub.map Prod.fst) hord
  rw [List.map_flatten, List.map_map] at hpw
  rw [List.pairwise_flatten] at hpw
  obtain ⟨h1, h2⟩ := hpw
  constructor
  · intro d hd
    exact h1 _ (List.mem_map_of_mem _ hd)
  · rw [List.pairwise_map] at h2
    exact h2

theorem packer_emission_ordering_witness :
    (([idxBatch 10].flatten.map Prod.fst).Pairwise (· < ·)) ∧
    (∀ d ∈ (packer_run mock100 499 14 [idxBatch 10]).emits,
      (d.stmts.map Prod.fst).Pairwise (· < ·)) ∧
    (packer_run mock100 499 14 [idxBatch 10]).emits.Pairwise (fun d1 d2 =>
      ∀ i ∈ d1.stmts.map Prod.fst, ∀ j ∈ d2.stmts.map Prod.fst, i < j) :=
  ⟨by decide,
   (packer_emission_ordering mock100 499 14 [idxBatch 10] (by decide)).1,
   (packer_emission_ordering mock100 499 14 [idxBatch 10] (by decide)).2⟩

/-- C4: for every finite input and every total serializer size function the
worker loop terminates — there is a fuel after which the loop has exited by
its own termination condition — and a worker whose upstream channel content
is exhausted and whose buffer is empty exits immediately. -/
theorem packer_loop_terminates {α : Type} (ser : List α → Option Nat) (MAX : Nat)
    (input : List (List (Nat × α))) :
    (∃ fuel, (packer_run ser MAX fuel input).finished = true) ∧
    (∀ s : PackerState α, s.statement_buffer = [] → s.batch_rx = [] →
      packer_step ser MAX s = .done (refilled s)) := by
  constructor
  · exact loop_term_aux ser MAX (packerMeasure (initState input)) (initState input)
      (Inv_initState input) (le_refl _)
  · intro s hb hrx
    have hbuf : (refilled s).statement_buffer = [] := by
      show (refill s.write_count s.have_more s.batch_rx s.statement_buffer).2.2 = []
      rw [hb, hrx]
      cases s.have_more
      · simp [refill]
      · simp only [refill]
        split <;> rfl
    show packer_iteration ser MAX (refilled s) = .done (refilled s)
    simp only [packer_iteration, hbuf]

theorem packer_loop_terminates_witness :
    (∃ fuel, (packer_run mock100 499 fuel [idxBatch 10]).finished = true) ∧
    packer_step mock100 499 (initState ([] : List (List (Nat × Unit))))
      = .done (refilled (initState [])) :=
  ⟨(packer_loop_terminates mock100 499 [idxBatch 10]).1,
   (packer_loop_terminates mock100 499 []).2 (initState []) rfl rfl⟩

/-- C5: when a probe with `write_count ≥ 2` classifies as overflow, the
Packer updates its search state exactly as the specification's step
describes — `lowest_overflow := min(lowest_overflow, write_count)`;
`write_count -= delta`; if `delta = 1` then
`write_count := lowest_overflow − 2` else `delta := max(1, delta >> 1)`;
then `write_count += delta` — and on that iteration it emits nothing and
drains nothing. -/
theorem overflow_backtracking_matches_spec {α : Type} (ser : List α → Option Nat)
    (MAX : Nat) (s : PackerState α) (hb : s.statement_buffer ≠ [])
    (htl : too_large ser MAX s = true) (hwc : 2 ≤ s.write_count) :
    packer_iteration ser MAX s = .cont s.write_count (spec_overflow_update s) ∧
    (spec_overflow_update s).statement_buffer = s.statement_buffer ∧
    (spec_overflow_update s).skipped_statements = s.skipped_statements := by
  have hov : overflow_update s = spec_overflow_update s := by
    unfold overflow_update spec_overflow_update
    by_cases hd : s.write_count_delta = 1 <;> simp [hd, Nat.max_comm]
  rcases packer_iteration_cases ser MAX s with
    ⟨hb', heq⟩ |
    ⟨idx, a, tail, hb', htl', hwc', heq⟩ |
    ⟨_, _, _, heq⟩ |
    ⟨len, d2, _, hser, hlen, _, _, heq⟩ |
    ⟨len, delta, _, hser, hlen, _, heq⟩
  · exact absurd hb' hb
  · exact absurd hwc' (by omega)
  · rw [heq, hov]
    exact ⟨rfl, rfl, rfl⟩
  · exact absurd htl (by simp [too_large, hser, hlen])
  · exact absurd htl (by simp [too_large, hser, hlen])

theorem overflow_backtracking_matches_spec_witness :
    (⟨[(0, ())], [], 2, 1, 10, 0, 0, true⟩ : PackerState Unit).statement_buffer ≠ [] ∧
    too_large (fun _ => (none : Option Nat)) 100
      (⟨[(0, ())], [], 2, 1, 10, 0, 0, true⟩ : PackerState Unit) = true ∧
    packer_iteration (fun _ => (none : Option Nat)) 100
        (⟨[(0, ())], [], 2, 1, 10, 0, 0, true⟩ : PackerState Unit)
      = .cont 2 (spec_overflow_update ⟨[(0, ())], [], 2, 1, 10, 0, 0, true⟩) :=
  ⟨by decide, by decide,
   (overflow_backtracking_matches_spec (fun _ => (none : Option Nat)) 100
      ⟨[(0, ())], [], 2, 1, 10, 0, 0, true⟩
      (by decide) (by decide) (by decide)).1⟩

lemma serProbe_mock100 (s : PackerState Unit) :
    serProbe mock100 s = some (100 * min s.write_count s.statement_buffer.length) := by
  unfold serProbe mock100
  simp [List.length_take, Nat.min_assoc]

lemma too_large_mock100 (MAX : Nat) (s : PackerState Unit) :
    too_large mock100 MAX s
      = decide (MAX < 100 * min s.write_count s.statement_buffer.length) := by
  unfold too_large
  rw [serProbe_mock100]

/-- C6 counterexample: the claim predicts the probe sequence
1, 2, 4, 8, 6, 7 before the first emission, but the source doubles
`write_count_delta` *before* adding it to `write_count`
(src/prepare.rs:281,290), so on a concrete input of 8 statements the worker
probes 1, 3, 7 and emits a 7-statement dataset at the third probe. -/
theorem probe_sequence_claim_counterexample :
    (packer_run mock100 701 3 [idxBatch 8]).probes = [1, 3, 7] ∧
    (packer_run mock100 701 3 [idxBatch 8]).emits.map RDFBDataset.statement_count
      = [7] ∧
    [1, 3, 7] ≠ [1, 2, 4, 8, 6, 7] :=
  ⟨by decide, by decide, by decide⟩

/-- C6 (amended): with the mock serializer `f(n) = 100·n` and
`MAX_BYTES = 701`, on an input of at least 7 statements delivered as one
micro-batch a Packer starting from its initial state probes the
`write_count` values 1, 3, 7 in that order before its first emission, and
the first emitted dataset contains exactly the first 7 statements. -/
theorem probe_sequence_mock100_701 (b : List (Nat × Unit)) (hb : 7 ≤ b.length)
    (n : Nat) :
    (packer_run mock100 701 (n + 3) [b]).probes.take 3 = [1, 3, 7] ∧
    (packer_run mock100 701 (n + 3) [b]).emits.head?.map RDFBDataset.statement_count
      = some 7 ∧
    (packer_run mock100 701 (n + 3) [b]).emits.head?.map RDFBDataset.stmts
      = some (b.take 7) := by
  obtain ⟨x, xs, rfl⟩ : ∃ x xs, b = x :: xs := by
    rcases b with _ | ⟨x, xs⟩
    · simp at hb
    · exact ⟨x, xs, rfl⟩
  obtain ⟨i, u⟩ := x
  set b := (i, u) :: xs with hbdef
  have hblen : 7 ≤ b.length := hb
  have hr0 : refill 1 true [b] ([] : List (Nat × Unit)) = (true, [], b) := by
    simp only [refill, List.nil_append, List.length_nil]
    rw [if_pos (by omega), if_neg (by omega)]
  have h0 : refilled (initState [b]) = ⟨b, [], 1, 1, USIZE_MAX, 0, 0, true⟩ := by
    unfold refilled initState
    dsimp only
    rw [hr0]
  have hmin1 : min 1 b.length = 1 := by omega
  have hmin3 : min 3 b.length = 3 := by omega
  have hmin7 : min 7 b.length = 7 := by omega
  have hstep1 : packer_iteration mock100 701
      (⟨b, [], 1, 1, USIZE_MAX, 0, 0, true⟩ : PackerState Unit)
      = .cont 1 ⟨b, [], 3, 2, USIZE_MAX, 100, 0, true⟩ := by
    rw [hbdef]
    simp only [packer_iteration]
    rw [if_neg (by rw [too_large_mock100]; dsimp only; rw [← hbdef, hmin1]; simp)]
    rw [show serProbe mock100 (⟨(i, u) :: xs, [], 1, 1, USIZE_MAX, 0, 0, true⟩ :
      PackerState Unit) = some 100 by rw [serProbe_mock100]; dsimp only; rw [← hbdef, hmin1]]
    simp only [Option.getD_some]
    rw [if_pos ?hc1]
    case hc1 =>
      refine ⟨by norm_num [ratio_lt_acceptable], by norm_num, Or.inr (by trivial)⟩
    rw [if_neg ?ha1]
    case ha1 => decide
    simp only [StepOut.cont.injEq, PackerState.mk.injEq, true_and, and_true]
    decide
  have hstep2 : packer_iteration mock100 701
      (⟨b, [], 3, 2, USIZE_MAX, 100, 0, true⟩ : PackerState Unit)
      = .cont 3 ⟨b, [], 7, 4, USIZE_MAX, 300, 0, true⟩ := by
    rw [hbdef]
    simp only [packer_iteration]
    rw [if_neg (by rw [too_large_mock100]; dsimp only; rw [← hbdef, hmin3]; simp)]
    rw [show serProbe mock100 (⟨(i, u) :: xs, [], 3, 2, USIZE_MAX, 100, 0, true⟩ :
      PackerState Unit) = some 300 by rw [serProbe_mock100]; dsimp only; rw [← hbdef, hmin3]]
    simp only [Option.getD_some]
    rw [if_pos ?hc2]
    case hc2 =>
      refine ⟨by norm_num [ratio_lt_acceptable], by norm_num, Or.inr (by trivial)⟩
    rw [if_neg ?ha2]
    case ha2 => decide
    simp only [StepOut.cont.injEq, PackerState.mk.injEq, true_and, and_true]
    decide
  have hstep3 : packer_iteration mock100 701
      (⟨b, [], 7, 4, USIZE_MAX, 300, 0, true⟩ : PackerState Unit)
      = .emit 7 ⟨b.take 7, 700, 7, 0⟩ ⟨b.drop 7, [], 1, 4, USIZE_MAX, 0, 0, true⟩ := by
    rw [hbdef]
    simp only [packer_iteration]
    rw [if_neg (by rw [too_large_mock100]; dsimp only; rw [← hbdef, hmin7]; simp)]
    rw [show serProbe mock100 (⟨(i, u) :: xs, [], 7, 4, USIZE_MAX, 300, 0, true⟩ :
      PackerState Unit) = some 700 by rw [serProbe_mock100]; dsimp only; rw [← hbdef, hmin7]]
    simp only [Option.getD_some]
    rw [if_neg ?hc3]
    case hc3 =>
      intro hcond
      exact absurd hcond.1 (by norm_num [ratio_lt_acceptable])
    unfold emit_step
    dsimp only
    rw [← hbdef, hmin7]
  have hrfull : ∀ (wc : Nat) (d lo br : Nat), ¬ b.length < wc →
      refilled (⟨b, [], wc, d, lo, br, 0, true⟩ : PackerState Unit)
        = ⟨b, [], wc, d, lo, br, 0, true⟩ := by
    intro wc d lo br hwc
    unfold refilled
    dsimp only
    rw [show refill wc true [] b = (true, [], b) by
      simp only [refill]
      rw [if_neg hwc]]
  have hs0 : packer_step mock100 701 (initState [b])
      = .cont 1 ⟨b, [], 3, 2, USIZE_MAX, 100, 0, true⟩ := by
    unfold packer_step
    rw [h0, hstep1]
  have hs1 : packer_step mock100 701
      (⟨b, [], 3, 2, USIZE_MAX, 100, 0, true⟩ : PackerState Unit)
      = .cont 3 ⟨b, [], 7, 4, USIZE_MAX, 300, 0, true⟩ := by
    unfold packer_step
    rw [hrfull 3 2 USIZE_MAX 100 (by omega), hstep2]
  have hs2 : packer_step mock100 701
      (⟨b, [], 7, 4, USIZE_MAX, 300, 0, true⟩ : PackerState Unit)
      = .emit 7 ⟨b.take 7, 700, 7, 0⟩ ⟨b.drop 7, [], 1, 4, USIZE_MAX, 0, 0, true⟩ := by
    unfold packer_step
    rw [hrfull 7 4 USIZE_MAX 300 (by omega), hstep3]
  unfold packer_run
  have hL : prepare_worker_loop mock100 701 (n + 3) (initState [b])
      = ⟨1 :: 3 :: 7 :: (prepare_worker_loop mock100 701 n
            (⟨b.drop 7, [], 1, 4, USIZE_MAX, 0, 0, true⟩ : PackerState Unit)).probes,
         ⟨b.take 7, 700, 7, 0⟩ :: (prepare_worker_loop mock100 701 n
            (⟨b.drop 7, [], 1, 4, USIZE_MAX, 0, 0, true⟩ : PackerState Unit)).emits,
         (prepare_worker_loop mock100 701 n
            (⟨b.drop 7, [], 1, 4, USIZE_MAX, 0, 0, true⟩ : PackerState Unit)).skips,
         (prepare_worker_loop mock100 701 n
            (⟨b.drop 7, [], 1, 4, USIZE_MAX, 0, 0, true⟩ : PackerState Unit)).state,
         (prepare_worker_loop mock100 701 n
            (⟨b.drop 7, [], 1, 4, USIZE_MAX, 0, 0, true⟩ : PackerState Unit)).finished⟩ := by
    simp only [prepare_worker_loop, hs0, hs1, hs2]
  rw [hL]
  exact ⟨rfl, rfl, rfl⟩

theorem probe_sequence_mock100_701_witness :
    7 ≤ (idxBatch 8).length ∧
    (packer_run mock100 701 (0 + 3) [idxBatch 8]).probes.take 3 = [1, 3, 7] ∧
    (packer_run mock100 701 (0 + 3) [idxBatch 8]).emits.head?.map
      RDFBDataset.statement_count = some 7 :=
  ⟨by decide,
   (probe_sequence_mock100_701 (idxBatch 8) (by decide) 0).1,
   (probe_sequence_mock100_701 (idxBatch 8) (by decide) 0).2.1⟩

/-- C7: with the mock serializer `f(n) = 100·n` and `MAX_BYTES = 499`, a
worker fed exactly 10 statements as one micro-batch (after which its input
channel closes) emits exactly three datasets with statement counts 4, 4, 2
in that order, then exits successfully with an empty buffer. -/
theorem mock100_499_emits_4_4_2 :
    (packer_run mock100 499 14 [idxBatch 10]).emits.map RDFBDataset.statement_count
      = [4, 4, 2] ∧
    (packer_run mock100 499 14 [idxBatch 10]).finished = true ∧
    (packer_run mock100 499 14 [idxBatch 10]).state.statement_buffer = [] :=
  ⟨by decide, by decide, by decide⟩

/-- C8: a single-statement probe (write_count = 1, non-empty buffer) that
classifies as overflow pops exactly the front statement, records its input
index (the warning's payload), increments the skipped counter by one, and
emits nothing; the accumulated skipped count is attached to the next emitted
dataset and then reset to 0. -/
theorem oversize_single_statement_skipped {α : Type} (ser : List α → Option Nat)
    (MAX : Nat) :
    (∀ (s : PackerState α) (idx : Nat) (a : α) (tail : List (Nat × α)),
      s.statement_buffer = (idx, a) :: tail → too_large ser MAX s = true →
      s.write_count = 1 →
      packer_iteration ser MAX s =
        .skip s.write_count idx
          { s with statement_buffer := tail,
                   skipped_statements := s.skipped_statements + 1 }) ∧
    (∀ (s : PackerState α) (p : Nat) (d : RDFBDataset α) (s' : PackerState α),
      packer_step ser MAX s = .emit p d s' →
      d.skipped_statements = s.skipped_statements ∧ s'.skipped_statements = 0) := by
  constructor
  · intro s idx a tail hb htl hwc
    simp only [packer_iteration, hb]
    rw [if_pos htl, if_pos hwc]
  · intro s p d s' hstep
    obtain ⟨_, _, _, h4, h5⟩ := packer_step_emit ser MAX s p d s' hstep
    exact ⟨h4, h5⟩

theorem oversize_single_statement_skipped_witness :
    too_large (fun _ => (none : Option Nat)) 100
      (⟨[(5, ())], [], 1, 1, USIZE_MAX, 0, 0, true⟩ : PackerState Unit) = true ∧
    packer_iteration (fun _ => (none : Option Nat)) 100
        (⟨[(5, ())], [], 1, 1, USIZE_MAX, 0, 0, true⟩ : PackerState Unit)
      = .skip 1 5 ⟨[], [], 1, 1, USIZE_MAX, 0, 1, true⟩ ∧
    packer_step mock100 701
        (⟨idxBatch 8, [], 7, 4, USIZE_MAX, 300, 2, true⟩ : PackerState Unit)
      = .emit 7 ⟨(idxBatch 8).take 7, 700, 7, 2⟩
          ⟨(idxBatch 8).drop 7, [], 1, 4, USIZE_MAX, 0, 0, true⟩ ∧
    (⟨(idxBatch 8).take 7, 700, 7, 2⟩ : RDFBDataset Unit).skipped_statements = 2 ∧
    (⟨(idxBatch 8).drop 7, [], 1, 4, USIZE_MAX, 0, 0, true⟩ :
      PackerState Unit).skipped_statements = 0 :=
  ⟨by decide,
   (oversize_single_statement_skipped (fun _ => (none : Option Nat)) 100).1
     ⟨[(5, ())], [], 1, 1, USIZE_MAX, 0, 0, true⟩ 5 () [] rfl (by decide) rfl,
   by decide,
   ((oversize_single_statement_skipped mock100 701).2
     ⟨idxBatch 8, [], 7, 4, USIZE_MAX, 300, 2, true⟩ 7
     ⟨(idxBatch 8).take 7, 700, 7, 2⟩
     ⟨(idxBatch 8).drop 7, [], 1, 4, USIZE_MAX, 0, 0, true⟩ (by decide)).1,
   ((oversize_single_statement_skipped mock100 701).2
     ⟨idxBatch 8, [], 7, 4, USIZE_MAX, 300, 2, true⟩ 7
     ⟨(idxBatch 8).take 7, 700, 7, 2⟩
     ⟨(idxBatch 8).drop 7, [], 1, 4, USIZE_MAX, 0, 0, true⟩ (by decide)).2⟩

/-- C9: the search-state arithmetic never underflows over the naturals:
the invariant `Inv` holds initially and is preserved by every step; from any
invariant state in the overflow branch with `write_count ≠ 1` we have
`2 ≤ write_count` and `write_count_delta < write_count` (so
`write_count -= write_count_delta` cannot underflow) and
`2 ≤ min lowest_overflow write_count` (so `lowest_overflow - 2` cannot
underflow after the min update); and every reachable state keeps
`write_count ≥ 1` at probe time. -/
theorem search_arithmetic_no_underflow {α : Type} (ser : List α → Option Nat)
    (MAX : Nat) :
    (∀ input : List (List (Nat × α)), Inv (initState input)) ∧
    (∀ s : PackerState α, Inv s → Inv (packer_step ser MAX s).next) ∧
    (∀ s : PackerState α, Inv s → s.statement_buffer ≠ [] →
      too_large ser MAX s = true → s.write_count ≠ 1 →
      2 ≤ s.write_count ∧ s.write_count_delta < s.write_count ∧
      2 ≤ min s.lowest_overflow s.write_count) ∧
    (∀ (fuel : Nat) (s : PackerState α), Inv s →
      1 ≤ (prepare_worker_loop ser MAX fuel s).state.write_count) := by
  refine ⟨Inv_initState, packer_step_inv ser MAX, ?_, ?_⟩
  · intro s hs hb htl hwc
    obtain ⟨h1, h2, h3, h4, h5, h6⟩ := hs
    refine ⟨by omega, ?_, ?_⟩
    · rcases h4 with h4 | h4 <;> omega
    · omega
  · intro fuel
    induction fuel with
    | zero =>
      intro s hs
      exact hs.2.1
    | succ n ih =>
      intro s hs
      have hs' := packer_step_inv ser MAX s hs
      rcases hstep : packer_step ser MAX s with s' | ⟨p, d, s'⟩ | ⟨p, i, s'⟩ | ⟨p, s'⟩ <;>
        rw [hstep] at hs' <;> dsimp only [StepOut.next] at hs' <;>
        simp only [prepare_worker_loop, hstep]
      · exact hs'.2.1
      · exact ih s' hs'
      · exact ih s' hs'
      · exact ih s' hs'

theorem search_arithmetic_no_underflow_witness :
    Inv (initState ([] : List (List (Nat × Unit)))) ∧
    (2 ≤ (⟨[(0, ())], [], 2, 1, 10, 0, 0, true⟩ : PackerState Unit).write_count ∧
      (⟨[(0, ())], [], 2, 1, 10, 0, 0, true⟩ : PackerState Unit).write_count_delta
        < (⟨[(0, ())], [], 2, 1, 10, 0, 0, true⟩ : PackerState Unit).write_count ∧
      2 ≤ min (⟨[(0, ())], [], 2, 1, 10, 0, 0, true⟩ : PackerState Unit).lowest_overflow
        (⟨[(0, ())], [], 2, 1, 10, 0, 0, true⟩ : PackerState Unit).write_count) ∧
    1 ≤ (prepare_worker_loop (fun _ => (none : Option Nat)) 100 5
      (⟨[(0, ())], [], 2, 1, 10, 0, 0, true⟩ : PackerState Unit)).state.write_count :=
  ⟨(search_arithmetic_no_underflow (fun _ => (none : Option Nat)) 100).1 [],
   (search_arithmetic_no_underflow (fun _ => (none : Option Nat)) 100).2.2.1
     ⟨[(0, ())], [], 2, 1, 10, 0, 0, true⟩
     ⟨by decide, by decide, by decide, Or.inr (by decide), by decide,
      fun h => nomatch h⟩
     (by decide) (by decide) (by decide),
   (search_arithmetic_no_underflow (fun _ => (none : Option Nat)) 100).2.2.2 5
     ⟨[(0, ())], [], 2, 1, 10, 0, 0, true⟩
     ⟨by decide, by decide, by decide, Or.inr (by decide), by decide,
      fun h => nomatch h⟩⟩

/-- C10: `split_prepared_files` is a partition of its input: every path
occurs in exactly one of the two returned lists (counted with multiplicity),
both lists preserve the input's relative order, a path is placed in the
first (prepared) list iff its file extension is exactly `rdfb`, and a path
with no extension always goes to the second (unprepared) list. -/
theorem split_prepared_files_partition (files : List (List Char)) :
    (∀ f, (split_prepared_files files).1.count f
        + (split_prepared_files files).2.count f = files.count f) ∧
    (split_prepared_files files).1.Sublist files ∧
    (split_prepared_files files).2.Sublist files ∧
    (∀ f ∈ files, (f ∈ (split_prepared_files files).1 ↔
      path_extension f = some "rdfb".toList)) ∧
    (∀ f ∈ files, path_extension f = none →
      f ∈ (split_prepared_files files).2) := by
  unfold split_prepared_files
  rw [List.partition_eq_filter_filter]
  dsimp only
  refine ⟨?_, List.filter_sublist _, List.filter_sublist _, ?_, ?_⟩
  · intro f
    by_cases hf : path_extension f = some "rdfb".toList
    · have hp : decide (path_extension f = some "rdfb".toList) = true :=
        decide_eq_true hf
      have h1 := List.count_filter
        (p := fun file => decide (path_extension file = some "rdfb".toList))
        (a := f) (l := files) hp
      have h2 : f ∉ files.filter
          (not ∘ fun file => decide (path_extension file = some "rdfb".toList)) := by
        intro hmem
        have h3 := (List.mem_filter.mp hmem).2
        simp [Function.comp, hp] at h3
        exact h3 hf
      rw [h1, List.count_eq_zero_of_not_mem h2]
      omega
    · have hp : decide (path_extension f = some "rdfb".toList) = false :=
        decide_eq_false hf
      have h1 : f ∉ files.filter
          (fun file => decide (path_extension file = some "rdfb".toList)) := by
        intro hmem
        have h3 := (List.mem_filter.mp hmem).2
        rw [hp] at h3
        exact Bool.noConfusion h3
      have h2 := List.count_filter
        (p := not ∘ fun file => decide (path_extension file = some "rdfb".toList))
        (a := f) (l := files) (by
          simp [Function.comp, hp]
          exact fun h => hf h)
      rw [h2, List.count_eq_zero_of_not_mem h1]
      omega
  · intro f hf
    rw [List.mem_filter]
    constructor
    · intro h
      exact of_decide_eq_true h.2
    · intro h
      exact ⟨hf, decide_eq_true h⟩
  · intro f hf hnone
    rw [List.mem_filter]
    refine ⟨hf, ?_⟩
    simp [Function.comp, hnone]

theorem split_prepared_files_partition_witness :
    "a.rdfb".toList ∈
      (split_prepared_files ["a.rdfb".toList, "b.nt".toList]).1 ∧
    (split_prepared_files ["a.rdfb".toList, "b.nt".toList]).1.Sublist
      ["a.rdfb".toList, "b.nt".toList] ∧
    "b.nt".toList ∈ (split_prepared_files ["a.rdfb".toList, "b.nt".toList]).2 :=
  ⟨((split_prepared_files_partition ["a.rdfb".toList, "b.nt".toList]).2.2.2.1
      "a.rdfb".toList (by decide)).mpr (by decide),
   (split_prepared_files_partition ["a.rdfb".toList, "b.nt".toList]).2.1,
   by decide⟩

end AsimovDatasetCli
